import Mathlib

/-!
# custom-scheduler: path-based node eligibility and scoring

A shallow embedding of `pkg/config/types.go`, `pkg/config/manager.go` and
`pkg/scheduler/plugins/custom/plugin.go`, followed by theorems about the
embedded functions.

Conventions of the embedding.

* A Go `string` is a `String`; `==` on strings is equality of strings.
* A Go slice that the code only ranges over is a `List` (a nil slice and an
  empty slice range alike).  A slice whose nil-ness the code inspects
  (`NodePath.Paths`, tested by `paths != nil` in `Score`) is an
  `Option (List _)`: `none` is the nil slice, `some l` a non-nil slice.
* A Go `error` is the text of its message; a nil error is `none`.
* A method that may write through its pointer receiver returns the receiver
  after the call next to its result.
* `int` and `int64` are 64-bit two's-complement integers: arithmetic on them
  is arithmetic on `Int` followed by `wrapInt64`.
* A `for … range` loop is a structural recursion over the list ranged over.
* Logging calls (`klog`) have no effect on any value and are left out.
* The mutex of `Manager` orders concurrent calls; the embedding is of one
  call at a time, so the lock and unlock statements are left out.
-/

set_option autoImplicit false

/-- Result of a Go call that may end in a run-time panic. -/
inductive Result (α : Type) where
  | ok : α → Result α
  | panic : String → Result α

/-- Text of the run-time error raised by reading through a nil pointer. -/
def nilDereference : String :=
  "runtime error: invalid memory address or nil pointer dereference"

/-- Reduction of an unbounded integer to the value a 64-bit signed machine
integer holds after the same operation. -/
def wrapInt64 (x : Int) : Int := (x + 2 ^ 63) % 2 ^ 64 - 2 ^ 63

/-- Go's `len` of a slice whose nil-ness is tracked: the nil slice has
length 0. -/
def len {α : Type} : Option (List α) → Nat
  | none => 0
  | some l => l.length

namespace config

/-- NodePath defines the mapping between node and its storage paths. -/
structure NodePath where
  Node : String
  Paths : Option (List String)
  deriving DecidableEq, Repr

/-- SchedulerConfig defines the configuration for the custom scheduler. -/
structure SchedulerConfig where
  NodePathMap : List NodePath
  deriving DecidableEq, Repr

/-- Reserved node identifier of the default-path entry. -/
def DefaultNodePath : String := "DEFAULT_PATH_FOR_NON_LISTED_NODES"

/-- Loop of `HasDefaultPath` over the remaining entries. -/
def SchedulerConfig.HasDefaultPath.loop : List NodePath → Bool
  | [] => false
  | np :: rest =>
    if np.Node = DefaultNodePath then true
    else SchedulerConfig.HasDefaultPath.loop rest

/-- HasDefaultPath checks if the configuration contains default path. -/
def SchedulerConfig.HasDefaultPath (c : SchedulerConfig) : Bool :=
  SchedulerConfig.HasDefaultPath.loop c.NodePathMap

/-- Loop of `GetNodePaths` over the remaining entries. -/
def SchedulerConfig.GetNodePaths.loop (nodeName : String) :
    List NodePath → Option (List String)
  | [] => none
  | np :: rest =>
    if np.Node = nodeName then np.Paths
    else SchedulerConfig.GetNodePaths.loop nodeName rest

/-- GetNodePaths returns the paths for a specific node. -/
def SchedulerConfig.GetNodePaths (c : SchedulerConfig) (nodeName : String) :
    Option (List String) :=
  SchedulerConfig.GetNodePaths.loop nodeName c.NodePathMap

/-- Second loop of `IsNodeAllowed`: is the node explicitly listed. -/
def SchedulerConfig.IsNodeAllowed.loop (nodeName : String) : List NodePath → Bool
  | [] => false
  | np :: rest =>
    if np.Node = nodeName then true
    else SchedulerConfig.IsNodeAllowed.loop nodeName rest

/-- IsNodeAllowed checks if a node is allowed based on the configuration. -/
def SchedulerConfig.IsNodeAllowed (c : SchedulerConfig) (nodeName : String) : Bool :=
  if c.HasDefaultPath then true
  else SchedulerConfig.IsNodeAllowed.loop nodeName c.NodePathMap

end config

namespace config

/-- Manager handles the scheduler configuration: it holds one
configuration snapshot.  `config` is never nil: `NewManager` and `LoadConfig`
are the only writers and both store the address of a value. -/
structure Manager where
  config : SchedulerConfig
  deriving DecidableEq, Repr

/-- NewManager creates a new configuration manager, holding the zero
configuration. -/
def NewManager : Manager := { config := { NodePathMap := [] } }

/-- LoadConfig loads configuration from JSON data.  `Unmarshal` is the
library routine `json.Unmarshal` applied to a fresh `SchedulerConfig`: the
decoded value, or the decoder's error. -/
def Manager.LoadConfig (Unmarshal : ByteArray → Except String SchedulerConfig)
    (m : Manager) (data : ByteArray) : Option String × Manager :=
  match Unmarshal data with
  | .error err => (some ("failed to unmarshal config: " ++ err), m)
  | .ok config => (none, { m with config := config })

/-- GetConfig returns the current configuration. -/
def Manager.GetConfig (m : Manager) : SchedulerConfig := m.config

/-- IsNodeAllowed checks if a node is allowed based on current configuration. -/
def Manager.IsNodeAllowed (m : Manager) (nodeName : String) : Bool :=
  m.config.IsNodeAllowed nodeName

/-- GetNodePaths returns the paths for a specific node. -/
def Manager.GetNodePaths (m : Manager) (nodeName : String) : Option (List String) :=
  m.config.GetNodePaths nodeName

end config

namespace framework

/-- Status codes of the host framework that the plugin produces. -/
inductive Code where
  | Success
  | Error
  | Unschedulable
  deriving DecidableEq, Repr

/-- Status of the host framework: a code and the reasons given with it. -/
structure Status where
  code : Code
  reasons : List String
  deriving DecidableEq, Repr

/-- NewStatus of the host framework. -/
def NewStatus (code : Code) (reasons : List String) : Status :=
  { code := code, reasons := reasons }

/-- PreFilterResult of the host framework; the plugin only ever returns nil. -/
structure PreFilterResult where
  NodeNames : List String
  deriving DecidableEq, Repr

/-- The part of a `corev1.Node` the plugin reads: its name. -/
structure Node where
  Name : String
  deriving DecidableEq, Repr

/-- A `*framework.NodeInfo` as seen through its accessor `Node()`, which
returns nil both for a nil receiver and for a node-less entry. -/
structure NodeInfo where
  Node : Option Node
  deriving DecidableEq, Repr

/-- The part of a `corev1.ConfigMap` the plugin reads: the map `Data`, given
by its lookup (`none` when the key does not exist). -/
structure ConfigMap where
  Data : String → Option String

/-- The client of the cluster object store:
`CoreV1().ConfigMaps(ns).Get(ctx, name, opts)`. -/
structure Clientset where
  GetConfigMap : String → String → Except String ConfigMap

/-- The part of `framework.Handle` the plugin calls:
`SnapshotSharedLister().NodeInfos().List()`, `….Get(nodeName)` and
`ClientSet()`. -/
structure Handle where
  List : Except String (List NodeInfo)
  Get : String → Except String NodeInfo
  ClientSet : Clientset

/-- A `runtime.Object` handed to a plugin factory: the raw plugin arguments. -/
structure RuntimeObject where
  Raw : String
  deriving DecidableEq, Repr

end framework

namespace custom

open config framework

/-- ConfigMapName is the name of the ConfigMap containing the configuration. -/
def ConfigMapName : String := "local-path-config"

/-- ConfigMapNamespace is the namespace of the ConfigMap. -/
def ConfigMapNamespace : String := "kube-system"

/-- ConfigKey is the key in the ConfigMap data that contains our configuration. -/
def ConfigKey : String := "config.json"

/-- PluginConfig: where the configuration is fetched from.  A field absent
from the decoded document is the empty string. -/
structure PluginConfig where
  ConfigMapName : String
  ConfigMapNamespace : String
  ConfigKey : String
  deriving DecidableEq, Repr

/-- Args: the plugin arguments; `StorageConfig` is a pointer, nil when the
document has no `storageConfig`. -/
structure Args where
  StorageConfig : Option PluginConfig
  deriving DecidableEq, Repr

/-- Library routines the repository calls but does not define:
`json.Unmarshal` into a fresh `SchedulerConfig` and
`frameworkruntime.DecodeInto` into a fresh `Args`. -/
structure Library where
  Unmarshal : ByteArray → Except String SchedulerConfig
  DecodeInto : RuntimeObject → Except String Args

/-- Plugin is the implementation of scheduler plugin. -/
structure Plugin where
  handle : Handle
  configManager : Manager
  clientset : Clientset
  pluginConfig : PluginConfig

/-- The `%q` verb of `fmt` on a string. -/
def quoted (s : String) : String := s.quote

/-- loadConfig loads the configuration from the ConfigMap. -/
def Plugin.loadConfig (lib : Library) (p : Plugin) : Option String × Plugin :=
  match p.clientset.GetConfigMap p.pluginConfig.ConfigMapNamespace
      p.pluginConfig.ConfigMapName with
  | .error err =>
    (some ("failed to get ConfigMap " ++ p.pluginConfig.ConfigMapNamespace ++ "/"
        ++ p.pluginConfig.ConfigMapName ++ ": " ++ err), p)
  | .ok cm =>
    match cm.Data p.pluginConfig.ConfigKey with
    | none =>
      (some ("ConfigMap " ++ p.pluginConfig.ConfigMapNamespace ++ "/"
        ++ p.pluginConfig.ConfigMapName ++ " does not contain key "
        ++ p.pluginConfig.ConfigKey), p)
    | some configData =>
      match p.configManager.LoadConfig lib.Unmarshal configData.toUTF8 with
      | (some err, configManager) =>
        (some ("failed to load config data: " ++ err),
          { p with configManager := configManager })
      | (none, configManager) => (none, { p with configManager := configManager })

/-- Rest of `New` once the configuration source is chosen: build the
manager and the plugin and load the initial configuration. -/
def New.build (lib : Library) (f : Handle) (pluginConfig : PluginConfig) :
    Except String Plugin :=
  let configManager := NewManager
  let clientset := f.ClientSet
  let plugin : Plugin :=
    { handle := f, configManager := configManager, clientset := clientset,
      pluginConfig := pluginConfig }
  match plugin.loadConfig lib with
  | (some err, _) => .error ("failed to load initial config: " ++ err)
  | (none, plugin) => .ok plugin

/-- New initializes a new plugin and returns it.  `configuration` is `none`
for a nil object. -/
def New (lib : Library) (configuration : Option RuntimeObject) (f : Handle) :
    Result (Except String Plugin) :=
  let pluginConfig : PluginConfig :=
    { ConfigMapName := ConfigMapName, ConfigMapNamespace := ConfigMapNamespace,
      ConfigKey := ConfigKey }
  match configuration with
  | none => .ok (New.build lib f pluginConfig)
  | some obj =>
    match lib.DecodeInto obj with
    | .error err => .ok (.error ("failed to decode configuration: " ++ err))
    | .ok args =>
      -- the logging call reads `*args.StorageConfig`
      match args.StorageConfig with
      | none => .panic nilDereference
      | some _ =>
        let pluginConfig :=
          match args.StorageConfig with
          | some storageConfig => storageConfig
          | none => pluginConfig
        .ok (New.build lib f pluginConfig)

/-- Loop of `PreFilter` over the remaining nodes: the final value of
`hasAllowedNode`.  Reading `.Name` of a nil node panics. -/
def Plugin.PreFilter.loop (m : Manager) : List NodeInfo → Result Bool
  | [] => .ok false
  | nodeInfo :: rest =>
    match nodeInfo.Node with
    | none => .panic nilDereference
    | some node =>
      if m.IsNodeAllowed node.Name then .ok true
      else Plugin.PreFilter.loop m rest

/-- PreFilter performs the pre-filter operation.  The context, the cycle
state and the pod are not read. -/
def Plugin.PreFilter (lib : Library) (p : Plugin) :
    Result ((Option PreFilterResult × Status) × Plugin) :=
  -- Continue with existing config if reload fails
  let p := (p.loadConfig lib).2
  match p.handle.List with
  | .error err => .ok ((none, NewStatus .Error ["error listing nodes: " ++ err]), p)
  | .ok nodes =>
    if nodes.length = 0 then
      .ok ((none, NewStatus .Unschedulable ["no nodes available to schedule"]), p)
    else if p.configManager.GetConfig.HasDefaultPath then
      .ok ((none, NewStatus .Success []), p)
    else
      match Plugin.PreFilter.loop p.configManager nodes with
      | .panic msg => .panic msg
      | .ok hasAllowedNode =>
        if !hasAllowedNode then
          .ok ((none, NewStatus .Unschedulable ["no nodes match the path configuration"]), p)
        else
          .ok ((none, NewStatus .Success []), p)

/-- Filter checks if the node matches the pod requirements. -/
def Plugin.Filter (p : Plugin) (nodeInfo : NodeInfo) : Status × Plugin :=
  match nodeInfo.Node with
  | none => (NewStatus .Error ["node not found"], p)
  | some node =>
    if !p.configManager.IsNodeAllowed node.Name then
      (NewStatus .Unschedulable ["node is not in the allowed nodes list"], p)
    else
      (NewStatus .Success [], p)

/-- Score ranks nodes that have passed the filtering stage. -/
def Plugin.Score (p : Plugin) (nodeName : String) : (Int × Status) × Plugin :=
  match p.handle.Get nodeName with
  | .error err =>
    ((0, NewStatus .Error
      ["getting node " ++ quoted nodeName ++ " from Snapshot: " ++ err]), p)
  | .ok _ =>
    let score : Int := wrapInt64 50
    let score : Int :=
      match p.configManager.GetNodePaths nodeName with
      | some paths => wrapInt64 (score + wrapInt64 (wrapInt64 ((paths.length : Int) * 10)))
      | none => score
    ((score, NewStatus .Success []), p)

end custom

/-! ## Concrete configurations, hosts and plugins used as examples -/

namespace custom

open config framework

/-- The configuration source `New` starts from. -/
def defaultPluginConfig : PluginConfig :=
  { ConfigMapName := "local-path-config", ConfigMapNamespace := "kube-system",
    ConfigKey := "config.json" }

/-- Configuration with the single entry `node-a -> [/data1, /data2]`. -/
def exampleConfig : SchedulerConfig :=
  { NodePathMap := [{ Node := "node-a", Paths := some ["/data1", "/data2"] }] }

/-- Document that `exampleLibrary` decodes to `exampleConfig`. -/
def exampleDocument : String :=
  "\x7b\"nodePathMap\":[\x7b\"node\":\"node-a\",\"paths\":[\"/data1\",\"/data2\"]\x7d]\x7d"

/-- Object store holding, in namespace `kube-system`, the ConfigMaps
`local-path-config` and `my-config`, each with `exampleDocument` under the
key `config.json`, and nothing else. -/
def exampleClientset : Clientset :=
  { GetConfigMap := fun ns name =>
      if ns = "kube-system" ∧ (name = "local-path-config" ∨ name = "my-config") then
        .ok { Data := fun key => if key = "config.json" then some exampleDocument else none }
      else
        .error ("configmaps \"" ++ name ++ "\" not found") }

/-- Host whose node snapshot has the nodes `node-a` and `node-b`. -/
def exampleHandle : Handle :=
  { List := .ok [{ Node := some { Name := "node-a" } }, { Node := some { Name := "node-b" } }],
    Get := fun nodeName =>
      if nodeName = "node-a" ∨ nodeName = "node-b" then
        .ok { Node := some { Name := nodeName } }
      else
        .error ("nodeinfo not found for node name \"" ++ nodeName ++ "\""),
    ClientSet := exampleClientset }

/-- Decoders that accept every document as `exampleConfig` and read the
plugin arguments `storageConfig: configMapName: my-config` from every
object. -/
def exampleLibrary : Library :=
  { Unmarshal := fun _ => .ok exampleConfig,
    DecodeInto := fun _ =>
      .ok { StorageConfig :=
        some { ConfigMapName := "my-config", ConfigMapNamespace := "", ConfigKey := "" } } }

/-- Decoders that reject every document. -/
def rejectingLibrary : Library :=
  { Unmarshal := fun _ => .error "unexpected end of JSON input",
    DecodeInto := fun _ => .error "couldn't get version/kind; json parse error" }

/-- Plugin on `exampleHandle` that holds `exampleConfig` and fetches from the
default source. -/
def examplePlugin : Plugin :=
  { handle := exampleHandle, configManager := { config := exampleConfig },
    clientset := exampleClientset, pluginConfig := defaultPluginConfig }

end custom

namespace custom

open config framework

/-- Field-by-field resolution of the configuration source, in the words of
the specification: a field of the override that is set gives its value, a
field that is unset (the empty string), and every field when the override
is absent, gives the fixed default. -/
def resolveFieldByField (override : Option PluginConfig) : PluginConfig :=
  match override with
  | none => defaultPluginConfig
  | some o =>
    { ConfigMapName := if o.ConfigMapName = "" then ConfigMapName else o.ConfigMapName,
      ConfigMapNamespace :=
        if o.ConfigMapNamespace = "" then ConfigMapNamespace else o.ConfigMapNamespace,
      ConfigKey := if o.ConfigKey = "" then ConfigKey else o.ConfigKey }

/-- Plugin arguments `storageConfig: configMapName: my-config`, as a raw
object. -/
def exampleArgs : RuntimeObject :=
  { Raw := "\x7b\"storageConfig\":\x7b\"configMapName\":\"my-config\"\x7d\x7d" }

/-- Host like `exampleHandle` whose object store answers every request, at
any namespace and name, with a ConfigMap that has `exampleDocument` under
every key. -/
def permissiveHandle : Handle :=
  { exampleHandle with
    ClientSet := { GetConfigMap := fun _ _ => .ok { Data := fun _ => some exampleDocument } } }

end custom

/-! ## Theorems -/

namespace config

theorem HasDefaultPath_loop_iff (l : List NodePath) :
    SchedulerConfig.HasDefaultPath.loop l = true ↔
      ∃ np ∈ l, np.Node = DefaultNodePath := by
  induction l with
  | nil => simp [SchedulerConfig.HasDefaultPath.loop]
  | cons np rest ih =>
    by_cases h : np.Node = DefaultNodePath
    · simp [SchedulerConfig.HasDefaultPath.loop, h]
    · simp [SchedulerConfig.HasDefaultPath.loop, h, ih]

theorem HasDefaultPath_iff (c : SchedulerConfig) :
    c.HasDefaultPath = true ↔ ∃ np ∈ c.NodePathMap, np.Node = DefaultNodePath :=
  HasDefaultPath_loop_iff c.NodePathMap

theorem IsNodeAllowed_loop_iff (n : String) (l : List NodePath) :
    SchedulerConfig.IsNodeAllowed.loop n l = true ↔ ∃ np ∈ l, np.Node = n := by
  induction l with
  | nil => simp [SchedulerConfig.IsNodeAllowed.loop]
  | cons np rest ih =>
    by_cases h : np.Node = n
    · simp [SchedulerConfig.IsNodeAllowed.loop, h]
    · simp [SchedulerConfig.IsNodeAllowed.loop, h, ih]

theorem IsNodeAllowed_eq_true_iff (c : SchedulerConfig) (n : String) :
    c.IsNodeAllowed n = true ↔
      (∃ np ∈ c.NodePathMap, np.Node = DefaultNodePath) ∨
        (∃ np ∈ c.NodePathMap, np.Node = n) := by
  unfold SchedulerConfig.IsNodeAllowed
  by_cases h : c.HasDefaultPath = true
  · simp only [h, if_true, true_iff]
    exact Or.inl ((HasDefaultPath_iff c).1 h)
  · have h' : ¬ ∃ np ∈ c.NodePathMap, np.Node = DefaultNodePath :=
      fun hex => h ((HasDefaultPath_iff c).2 hex)
    simp only [h, if_false, Bool.false_eq_true]
    rw [IsNodeAllowed_loop_iff]
    constructor
    · exact Or.inr
    · rintro (hd | hl)
      · exact absurd hd h'
      · exact hl

theorem GetNodePaths_loop_first (n : String) (pre post : List NodePath) (np : NodePath)
    (hnp : np.Node = n) (hpre : ∀ x ∈ pre, x.Node ≠ n) :
    SchedulerConfig.GetNodePaths.loop n (pre ++ np :: post) = np.Paths := by
  induction pre with
  | nil => simp [SchedulerConfig.GetNodePaths.loop, hnp]
  | cons x rest ih =>
    have hx : x.Node ≠ n := hpre x (List.mem_cons_self _ _)
    have hrest : ∀ y ∈ rest, y.Node ≠ n := fun y hy => hpre y (List.mem_cons_of_mem _ hy)
    simp [SchedulerConfig.GetNodePaths.loop, hx, ih hrest]

theorem GetNodePaths_loop_unlisted (n : String) (l : List NodePath)
    (h : ∀ x ∈ l, x.Node ≠ n) :
    SchedulerConfig.GetNodePaths.loop n l = none := by
  induction l with
  | nil => rfl
  | cons x rest ih =>
    have hx : x.Node ≠ n := h x (List.mem_cons_self _ _)
    have hrest : ∀ y ∈ rest, y.Node ≠ n := fun y hy => h y (List.mem_cons_of_mem _ hy)
    simp [SchedulerConfig.GetNodePaths.loop, hx, ih hrest]

/-- C1: `IsNodeAllowed c n` is true exactly when `c` has an entry whose node
is the sentinel `DEFAULT_PATH_FOR_NON_LISTED_NODES` or an entry whose node is
`n`; so with the sentinel present every node identifier is allowed, and
without it a node identifier is allowed exactly when it is listed. -/
theorem C1_IsNodeAllowed_iff_sentinel_or_listed (c : SchedulerConfig) (n : String) :
    (c.IsNodeAllowed n = true ↔
      (∃ np ∈ c.NodePathMap, np.Node = "DEFAULT_PATH_FOR_NON_LISTED_NODES") ∨
        (∃ np ∈ c.NodePathMap, np.Node = n)) ∧
    ((∃ np ∈ c.NodePathMap, np.Node = "DEFAULT_PATH_FOR_NON_LISTED_NODES") →
      ∀ m : String, c.IsNodeAllowed m = true) ∧
    ((¬ ∃ np ∈ c.NodePathMap, np.Node = "DEFAULT_PATH_FOR_NON_LISTED_NODES") →
      (c.IsNodeAllowed n = true ↔ ∃ np ∈ c.NodePathMap, np.Node = n)) := by
  have key := fun m => IsNodeAllowed_eq_true_iff c m
  simp only [DefaultNodePath] at key
  refine ⟨key n, ?_, ?_⟩
  · intro hs m
    exact (key m).2 (Or.inl hs)
  · intro hns
    rw [key n]
    constructor
    · rintro (hd | hl)
      · exact absurd hd hns
      · exact hl
    · exact Or.inr

/-- Witness of C1: the configuration whose only entry is the sentinel allows
the node `node-x`, which no entry lists. -/
theorem C1_IsNodeAllowed_iff_sentinel_or_listed_witness :
    SchedulerConfig.IsNodeAllowed
      { NodePathMap := [{ Node := "DEFAULT_PATH_FOR_NON_LISTED_NODES", Paths := none }] }
      "node-x" = true :=
  (C1_IsNodeAllowed_iff_sentinel_or_listed
    { NodePathMap := [{ Node := "DEFAULT_PATH_FOR_NON_LISTED_NODES", Paths := none }] }
    "node-x").2.1 ⟨_, List.mem_singleton.2 rfl, rfl⟩ "node-x"

end config

namespace config

/-- C5: `GetNodePaths c n` is the path list of the first entry, in insertion
order, whose node is `n`, and nil (`none`) when no entry's node is `n`, also
when `c` has the sentinel entry; the manager's `GetNodePaths` answers the
same from the snapshot it holds.  With the single entry sentinel -> `[]`,
`"any-node"` is allowed and has no paths. -/
theorem C5_GetNodePaths_first_entry_or_nil (c : SchedulerConfig) (n : String) :
    (∀ (pre post : List NodePath) (np : NodePath),
      c.NodePathMap = pre ++ np :: post → np.Node = n → (∀ x ∈ pre, x.Node ≠ n) →
        c.GetNodePaths n = np.Paths ∧
          Manager.GetNodePaths { config := c } n = np.Paths) ∧
    ((∀ x ∈ c.NodePathMap, x.Node ≠ n) →
      c.GetNodePaths n = none ∧ Manager.GetNodePaths { config := c } n = none) ∧
    ((∃ np ∈ c.NodePathMap, np.Node = "DEFAULT_PATH_FOR_NON_LISTED_NODES") →
      (∀ x ∈ c.NodePathMap, x.Node ≠ n) →
        c.IsNodeAllowed n = true ∧ c.GetNodePaths n = none) ∧
    (SchedulerConfig.IsNodeAllowed
        { NodePathMap := [{ Node := "DEFAULT_PATH_FOR_NON_LISTED_NODES", Paths := some [] }] }
        "any-node" = true ∧
      SchedulerConfig.GetNodePaths
        { NodePathMap := [{ Node := "DEFAULT_PATH_FOR_NON_LISTED_NODES", Paths := some [] }] }
        "any-node" = none) := by
  refine ⟨?_, ?_, ?_, ?_⟩
  · intro pre post np hc hnp hpre
    have h : c.GetNodePaths n = np.Paths := by
      unfold SchedulerConfig.GetNodePaths
      rw [hc]
      exact GetNodePaths_loop_first n pre post np hnp hpre
    exact ⟨h, h⟩
  · intro hno
    have h : c.GetNodePaths n = none := GetNodePaths_loop_unlisted n c.NodePathMap hno
    exact ⟨h, h⟩
  · intro hs hno
    refine ⟨(IsNodeAllowed_eq_true_iff c n).2 (Or.inl ?_),
      GetNodePaths_loop_unlisted n c.NodePathMap hno⟩
    simpa [DefaultNodePath] using hs
  · constructor <;> decide

/-- Witness of C5 at the two-entry configuration
`[node-a -> [/data1], node-a -> [/data2]]`: the first entry answers. -/
theorem C5_GetNodePaths_first_entry_or_nil_witness :
    SchedulerConfig.GetNodePaths
      { NodePathMap := [{ Node := "node-a", Paths := some ["/data1"] },
          { Node := "node-a", Paths := some ["/data2"] }] } "node-a" = some ["/data1"] :=
  ((C5_GetNodePaths_first_entry_or_nil
      { NodePathMap := [{ Node := "node-a", Paths := some ["/data1"] },
          { Node := "node-a", Paths := some ["/data2"] }] } "node-a").1
    [] [{ Node := "node-a", Paths := some ["/data2"] }]
    { Node := "node-a", Paths := some ["/data1"] } rfl rfl (by simp)).1

end config

theorem wrapInt64_of_fits (x : Int) (hlo : -2 ^ 63 ≤ x) (hhi : x < 2 ^ 63) :
    wrapInt64 x = x := by
  unfold wrapInt64
  norm_num at hlo hhi ⊢
  omega

namespace custom

open config framework

/-- The score computed for a path list of length `k` that fits the machine
integer is `50 + 10 * k`. -/
theorem score_arith (k : Nat) (hfit : 50 + 10 * (k : Int) < 2 ^ 63) :
    wrapInt64 (wrapInt64 50 + wrapInt64 (wrapInt64 ((k : Int) * 10))) = 50 + 10 * (k : Int) := by
  have hk : (0 : Int) ≤ k := Int.ofNat_nonneg k
  have h50 : wrapInt64 50 = 50 := wrapInt64_of_fits 50 (by norm_num) (by norm_num)
  have hmul : wrapInt64 ((k : Int) * 10) = (k : Int) * 10 :=
    wrapInt64_of_fits _ (by norm_num; omega) (by norm_num at hfit ⊢; omega)
  rw [h50, hmul, hmul]
  have hsum : wrapInt64 (50 + (k : Int) * 10) = 50 + (k : Int) * 10 :=
    wrapInt64_of_fits _ (by norm_num; omega) (by norm_num at hfit ⊢; omega)
  rw [hsum]
  ring

theorem Score_of_resolved (p : Plugin) (n : String) (nodeInfo : NodeInfo)
    (hget : p.handle.Get n = .ok nodeInfo) :
    p.Score n =
      ((match p.configManager.GetConfig.GetNodePaths n with
        | some paths =>
          wrapInt64 (wrapInt64 50 + wrapInt64 (wrapInt64 ((paths.length : Int) * 10)))
        | none => wrapInt64 50, NewStatus .Success []), p) := by
  unfold Plugin.Score
  rw [hget]
  rfl

theorem Score_of_paths (p : Plugin) (n : String) (nodeInfo : NodeInfo)
    (hget : p.handle.Get n = .ok nodeInfo) (paths : Option (List String))
    (hpaths : p.configManager.GetConfig.GetNodePaths n = paths)
    (hfit : 50 + 10 * (len paths : Int) < 2 ^ 63) :
    p.Score n = ((50 + 10 * (len paths : Int), NewStatus .Success []), p) := by
  rw [Score_of_resolved p n nodeInfo hget, hpaths]
  cases paths with
  | none =>
    have h50 : wrapInt64 50 = 50 := wrapInt64_of_fits 50 (by norm_num) (by norm_num)
    simp [len, h50]
  | some l =>
    have := score_arith l.length (by simpa [len] using hfit)
    simp [len, this]

end custom

namespace custom

open config framework

/-- C4: for a node identifier that resolves in the host node snapshot,
`Score` returns `50 + 10 * k` with `Success`, `k` being the length of the
path list of the first entry whose node is the identifier (the score fitting
the 64-bit integer), and `50` when the identifier has no entry; when the
identifier does not resolve it returns an `Error` status.  With the single
entry `node-a -> [/data1, /data2]` the score of `node-a` is 70. -/
theorem C4_Score_fifty_plus_ten_per_path (p : Plugin) (n : String) :
    (∀ nodeInfo : NodeInfo, p.handle.Get n = .ok nodeInfo →
      (∀ (pre post : List NodePath) (np : NodePath),
        p.configManager.GetConfig.NodePathMap = pre ++ np :: post →
        np.Node = n → (∀ x ∈ pre, x.Node ≠ n) →
        50 + 10 * (len np.Paths : Int) < 2 ^ 63 →
          p.Score n = ((50 + 10 * (len np.Paths : Int), NewStatus .Success []), p)) ∧
      ((∀ x ∈ p.configManager.GetConfig.NodePathMap, x.Node ≠ n) →
          p.Score n = ((50, NewStatus .Success []), p))) ∧
    (∀ err : String, p.handle.Get n = .error err →
      (p.Score n).1.2.code = Code.Error ∧ (p.Score n).1.1 = 0 ∧ (p.Score n).2 = p) ∧
    (∀ (q : Plugin) (nodeInfo : NodeInfo),
      q.configManager.GetConfig =
        { NodePathMap := [{ Node := "node-a", Paths := some ["/data1", "/data2"] }] } →
      q.handle.Get "node-a" = .ok nodeInfo →
        (q.Score "node-a").1 = (70, NewStatus .Success [])) := by
  refine ⟨?_, ?_, ?_⟩
  · intro nodeInfo hget
    constructor
    · intro pre post np hc hnp hpre hfit
      have hpaths : p.configManager.GetConfig.GetNodePaths n = np.Paths := by
        unfold SchedulerConfig.GetNodePaths
        rw [hc]
        exact GetNodePaths_loop_first n pre post np hnp hpre
      exact Score_of_paths p n nodeInfo hget np.Paths hpaths hfit
    · intro hno
      have hpaths : p.configManager.GetConfig.GetNodePaths n = none :=
        GetNodePaths_loop_unlisted n _ hno
      have := Score_of_paths p n nodeInfo hget none hpaths (by norm_num [len])
      simpa [len] using this
  · intro err hget
    unfold Plugin.Score
    rw [hget]
    exact ⟨rfl, rfl, rfl⟩
  · intro q nodeInfo hc hget
    have hpaths : q.configManager.GetConfig.GetNodePaths "node-a"
        = some ["/data1", "/data2"] := by
      rw [hc]; decide
    have := Score_of_paths q "node-a" nodeInfo hget _ hpaths (by norm_num [len])
    rw [this]
    norm_num [len]

/-- Witness of C4: `examplePlugin` holds `node-a -> [/data1, /data2]`, the
host resolves `node-a`, and the score is 50 + 10 * 2. -/
theorem C4_Score_fifty_plus_ten_per_path_witness :
    examplePlugin.Score "node-a" =
      ((50 + 10 * ((2 : Nat) : Int), NewStatus .Success []), examplePlugin) :=
  ((C4_Score_fifty_plus_ten_per_path examplePlugin "node-a").1
      { Node := some { Name := "node-a" } } rfl).1
    [] [] { Node := "node-a", Paths := some ["/data1", "/data2"] } rfl rfl
    (by simp) (by norm_num [len])

/-- C9: if two plugins hold configurations that differ only in the path list
of the entry of node `N` (the first entry for `N`, as it is when node
identifiers are unique per entry), the second list being strictly longer,
and `N` resolves in the host node snapshot, then the score of `N` under the
second configuration is strictly greater (the scores fitting the 64-bit
integer). -/
theorem C9_Score_strictly_monotone_in_path_count (p1 p2 : Plugin) (N : String)
    (pre post : List NodePath) (paths1 paths2 : Option (List String))
    (nodeInfo1 nodeInfo2 : NodeInfo)
    (hc1 : p1.configManager.GetConfig.NodePathMap
      = pre ++ { Node := N, Paths := paths1 } :: post)
    (hc2 : p2.configManager.GetConfig.NodePathMap
      = pre ++ { Node := N, Paths := paths2 } :: post)
    (hfirst : ∀ x ∈ pre, x.Node ≠ N)
    (hlt : len paths1 < len paths2)
    (hfit : 50 + 10 * (len paths2 : Int) < 2 ^ 63)
    (hget1 : p1.handle.Get N = .ok nodeInfo1)
    (hget2 : p2.handle.Get N = .ok nodeInfo2) :
    (p1.Score N).1.1 < (p2.Score N).1.1 ∧
      (p1.Score N).1.2 = NewStatus .Success [] ∧
      (p2.Score N).1.2 = NewStatus .Success [] := by
  have hp1 : p1.configManager.GetConfig.GetNodePaths N = paths1 := by
    unfold SchedulerConfig.GetNodePaths
    rw [hc1]
    exact GetNodePaths_loop_first N pre post _ rfl hfirst
  have hp2 : p2.configManager.GetConfig.GetNodePaths N = paths2 := by
    unfold SchedulerConfig.GetNodePaths
    rw [hc2]
    exact GetNodePaths_loop_first N pre post _ rfl hfirst
  have hlt' : (len paths1 : Int) < (len paths2 : Int) := by exact_mod_cast hlt
  have hfit1 : 50 + 10 * (len paths1 : Int) < 2 ^ 63 := by
    norm_num at hfit ⊢; omega
  rw [Score_of_paths p1 N nodeInfo1 hget1 paths1 hp1 hfit1,
    Score_of_paths p2 N nodeInfo2 hget2 paths2 hp2 hfit]
  refine ⟨?_, rfl, rfl⟩
  show 50 + 10 * (len paths1 : Int) < 50 + 10 * (len paths2 : Int)
  omega

/-- Witness of C9: `node-a` with one path against `node-a` with two paths,
next to an unrelated entry. -/
theorem C9_Score_strictly_monotone_in_path_count_witness :
    (Plugin.Score { examplePlugin with configManager := { config :=
        { NodePathMap := [{ Node := "node-b", Paths := some ["/mnt"] },
          { Node := "node-a", Paths := some ["/data1"] }] } } } "node-a").1.1
      < (Plugin.Score { examplePlugin with configManager := { config :=
        { NodePathMap := [{ Node := "node-b", Paths := some ["/mnt"] },
          { Node := "node-a", Paths := some ["/data1", "/data2"] }] } } } "node-a").1.1 :=
  (C9_Score_strictly_monotone_in_path_count
    { examplePlugin with configManager := { config :=
        { NodePathMap := [{ Node := "node-b", Paths := some ["/mnt"] },
          { Node := "node-a", Paths := some ["/data1"] }] } } }
    { examplePlugin with configManager := { config :=
        { NodePathMap := [{ Node := "node-b", Paths := some ["/mnt"] },
          { Node := "node-a", Paths := some ["/data1", "/data2"] }] } } }
    "node-a" [{ Node := "node-b", Paths := some ["/mnt"] }] []
    (some ["/data1"]) (some ["/data1", "/data2"])
    { Node := some { Name := "node-a" } } { Node := some { Name := "node-a" } }
    rfl rfl (by simp) (by simp [len]) (by norm_num [len]) rfl rfl).1

end custom

namespace config

/-- C6: if the document fails to parse, `LoadConfig` returns an error and
`GetConfig` afterwards is what it was before; if the document parses to a
configuration, `LoadConfig` returns no error and `GetConfig` afterwards is
exactly that configuration, so an entry of the previous snapshot that is not
in it is not held afterwards. -/
theorem C6_LoadConfig_replaces_or_keeps
    (Unmarshal : ByteArray → Except String SchedulerConfig) (m : Manager) (d : ByteArray) :
    (∀ err : String, Unmarshal d = .error err →
      (m.LoadConfig Unmarshal d).1 = some ("failed to unmarshal config: " ++ err) ∧
        (m.LoadConfig Unmarshal d).2.GetConfig = m.GetConfig) ∧
    (∀ c' : SchedulerConfig, Unmarshal d = .ok c' →
      (m.LoadConfig Unmarshal d).1 = none ∧
        (m.LoadConfig Unmarshal d).2.GetConfig = c' ∧
        (∀ np ∈ m.GetConfig.NodePathMap, np ∉ c'.NodePathMap →
          np ∉ (m.LoadConfig Unmarshal d).2.GetConfig.NodePathMap)) := by
  constructor
  · intro err h
    simp [Manager.LoadConfig, h]
  · intro c' h
    simp only [Manager.LoadConfig, h, Manager.GetConfig]
    exact ⟨trivial, trivial, fun _ _ hnot => hnot⟩

/-- Witness of C6: a manager holding `node-old` loads a document that
parses to `node-new` only; afterwards it holds exactly `node-new`. -/
theorem C6_LoadConfig_replaces_or_keeps_witness :
    (Manager.LoadConfig
        (fun _ => .ok { NodePathMap := [{ Node := "node-new", Paths := some ["/data"] }] })
        { config := { NodePathMap := [{ Node := "node-old", Paths := none }] } }
        ByteArray.empty).2.GetConfig
      = { NodePathMap := [{ Node := "node-new", Paths := some ["/data"] }] } :=
  ((C6_LoadConfig_replaces_or_keeps
    (fun _ => .ok { NodePathMap := [{ Node := "node-new", Paths := some ["/data"] }] })
    { config := { NodePathMap := [{ Node := "node-old", Paths := none }] } }
    ByteArray.empty).2 _ rfl).2.1

end config

namespace custom

open config framework

/-- The three ways `loadConfig` fails, and the one way it succeeds. -/
theorem loadConfig_cases (lib : Library) (p : Plugin) :
    ((∃ err, p.clientset.GetConfigMap p.pluginConfig.ConfigMapNamespace
          p.pluginConfig.ConfigMapName = .error err) ∧
        ∃ e, p.loadConfig lib = (some e, p)) ∨
    ((∃ cm, p.clientset.GetConfigMap p.pluginConfig.ConfigMapNamespace
          p.pluginConfig.ConfigMapName = .ok cm ∧ cm.Data p.pluginConfig.ConfigKey = none) ∧
        ∃ e, p.loadConfig lib = (some e, p)) ∨
    ((∃ cm d err, p.clientset.GetConfigMap p.pluginConfig.ConfigMapNamespace
          p.pluginConfig.ConfigMapName = .ok cm ∧ cm.Data p.pluginConfig.ConfigKey = some d ∧
          lib.Unmarshal d.toUTF8 = .error err) ∧
        ∃ e, p.loadConfig lib = (some e, p)) ∨
    (∃ cm d c', p.clientset.GetConfigMap p.pluginConfig.ConfigMapNamespace
          p.pluginConfig.ConfigMapName = .ok cm ∧ cm.Data p.pluginConfig.ConfigKey = some d ∧
          lib.Unmarshal d.toUTF8 = .ok c' ∧
          p.loadConfig lib = (none, { p with configManager := { config := c' } })) := by
  cases hget : p.clientset.GetConfigMap p.pluginConfig.ConfigMapNamespace
      p.pluginConfig.ConfigMapName with
  | error err =>
    refine Or.inl ⟨⟨err, rfl⟩, ?_⟩
    simp only [Plugin.loadConfig, hget]
    exact ⟨_, rfl⟩
  | ok cm =>
    cases hkey : cm.Data p.pluginConfig.ConfigKey with
    | none =>
      refine Or.inr (Or.inl ⟨⟨cm, rfl, hkey⟩, ?_⟩)
      simp only [Plugin.loadConfig, hget, hkey]
      exact ⟨_, rfl⟩
    | some d =>
      cases hparse : lib.Unmarshal d.toUTF8 with
      | error err =>
        refine Or.inr (Or.inr (Or.inl ⟨⟨cm, d, err, rfl, hkey, hparse⟩, ?_⟩))
        simp only [Plugin.loadConfig, hget, hkey, Manager.LoadConfig, hparse]
        exact ⟨_, rfl⟩
      | ok c' =>
        refine Or.inr (Or.inr (Or.inr ⟨cm, d, c', rfl, hkey, hparse, ?_⟩))
        simp only [Plugin.loadConfig, hget, hkey, Manager.LoadConfig, hparse]

theorem loadConfig_error_keeps (lib : Library) (p : Plugin) (e : String)
    (h : (p.loadConfig lib).1 = some e) : (p.loadConfig lib).2 = p := by
  rcases loadConfig_cases lib p with ⟨_, e', he⟩ | ⟨_, e', he⟩ | ⟨_, e', he⟩ |
    ⟨cm, d, c', _, _, _, hok⟩
  · rw [he]
  · rw [he]
  · rw [he]
  · rw [hok] at h; cases h

theorem loadConfig_handle (lib : Library) (p : Plugin) :
    (p.loadConfig lib).2.handle = p.handle := by
  rcases loadConfig_cases lib p with ⟨_, e', he⟩ | ⟨_, e', he⟩ | ⟨_, e', he⟩ |
    ⟨cm, d, c', _, _, _, hok⟩
  · rw [he]
  · rw [he]
  · rw [he]
  · rw [hok]

theorem PreFilter_loop_present (m : Manager) (nodes : List Node) :
    Plugin.PreFilter.loop m (nodes.map fun n => { Node := some n })
      = .ok (nodes.any fun n => m.IsNodeAllowed n.Name) := by
  induction nodes with
  | nil => rfl
  | cons n rest ih =>
    by_cases h : m.IsNodeAllowed n.Name = true
    · simp [Plugin.PreFilter.loop, h]
    · simp [Plugin.PreFilter.loop, h, ih]

/-- The decision of `PreFilter` on a list of present nodes, from the
configuration held after the refresh attempt. -/
theorem PreFilter_of_nodes (lib : Library) (p : Plugin) (nodes : List Node)
    (hlist : p.handle.List = .ok (nodes.map fun n => { Node := some n })) :
    p.PreFilter lib = .ok ((none,
      if nodes = [] then
        NewStatus .Unschedulable ["no nodes available to schedule"]
      else if (p.loadConfig lib).2.configManager.GetConfig.HasDefaultPath = true then
        NewStatus .Success []
      else if nodes.any (fun n =>
          (p.loadConfig lib).2.configManager.GetConfig.IsNodeAllowed n.Name) = true then
        NewStatus .Success []
      else
        NewStatus .Unschedulable ["no nodes match the path configuration"]),
      (p.loadConfig lib).2) := by
  unfold Plugin.PreFilter
  simp only [loadConfig_handle, hlist, List.length_map]
  by_cases hnil : nodes = []
  · subst hnil
    simp
  · have hlen : nodes.length ≠ 0 := fun h => hnil (List.length_eq_zero.mp h)
    simp only [hlen, hnil, if_false]
    by_cases hdef : (p.loadConfig lib).2.configManager.GetConfig.HasDefaultPath = true
    · simp only [hdef, if_true]
    · simp only [hdef, if_false, PreFilter_loop_present]
      by_cases hany : nodes.any (fun n =>
          (p.loadConfig lib).2.configManager.GetConfig.IsNodeAllowed n.Name) = true
      · have hany' : nodes.any (fun n =>
            (p.loadConfig lib).2.configManager.IsNodeAllowed n.Name) = true := hany
        simp [hany, hany']
      · have hany' : ¬ nodes.any (fun n =>
            (p.loadConfig lib).2.configManager.IsNodeAllowed n.Name) = true := hany
        simp only [Bool.not_eq_true] at hany hany'
        simp [hany, hany']

theorem PreFilter_of_list_error (lib : Library) (p : Plugin) (err : String)
    (hlist : p.handle.List = .error err) :
    p.PreFilter lib = .ok ((none, NewStatus .Error ["error listing nodes: " ++ err]),
      (p.loadConfig lib).2) := by
  unfold Plugin.PreFilter
  simp only [loadConfig_handle, hlist]

end custom

namespace custom

open config framework

theorem Filter_present (p : Plugin) (node : Node) :
    p.Filter { Node := some node } =
      (if p.configManager.GetConfig.IsNodeAllowed node.Name = true then
        NewStatus .Success []
      else
        NewStatus .Unschedulable ["node is not in the allowed nodes list"], p) := by
  unfold Plugin.Filter
  by_cases h : p.configManager.GetConfig.IsNodeAllowed node.Name = true
  · have h' : p.configManager.IsNodeAllowed node.Name = true := h
    simp [h, h']
  · have h' : p.configManager.IsNodeAllowed node.Name = false := by
      simpa [Manager.IsNodeAllowed, Manager.GetConfig] using h
    simp [h, h']

/-- C2: with `c` the configuration held after the refresh attempt and
`nodes` the candidate nodes listed by the host, `PreFilter` returns
`Unschedulable` "no nodes available to schedule" when `nodes` is empty;
otherwise `Success` when `c` has the sentinel entry; otherwise
`Unschedulable` "no nodes match the path configuration" when no node of
`nodes` satisfies `IsNodeAllowed`; otherwise `Success`. -/
theorem C2_PreFilter_decision (lib : Library) (p : Plugin) (nodes : List Node)
    (c : SchedulerConfig)
    (hlist : p.handle.List = .ok (nodes.map fun n => { Node := some n }))
    (hc : (p.loadConfig lib).2.configManager.GetConfig = c) :
    (nodes = [] →
      p.PreFilter lib = .ok ((none,
        NewStatus .Unschedulable ["no nodes available to schedule"]),
        (p.loadConfig lib).2)) ∧
    (nodes ≠ [] → (∃ np ∈ c.NodePathMap, np.Node = "DEFAULT_PATH_FOR_NON_LISTED_NODES") →
      p.PreFilter lib = .ok ((none, NewStatus .Success []), (p.loadConfig lib).2)) ∧
    (nodes ≠ [] → (¬ ∃ np ∈ c.NodePathMap, np.Node = "DEFAULT_PATH_FOR_NON_LISTED_NODES") →
      (∀ n ∈ nodes, c.IsNodeAllowed n.Name = false) →
      p.PreFilter lib = .ok ((none,
        NewStatus .Unschedulable ["no nodes match the path configuration"]),
        (p.loadConfig lib).2)) ∧
    (nodes ≠ [] → (¬ ∃ np ∈ c.NodePathMap, np.Node = "DEFAULT_PATH_FOR_NON_LISTED_NODES") →
      (∃ n ∈ nodes, c.IsNodeAllowed n.Name = true) →
      p.PreFilter lib = .ok ((none, NewStatus .Success []), (p.loadConfig lib).2)) := by
  have hdef := HasDefaultPath_iff c
  simp only [DefaultNodePath] at hdef
  rw [PreFilter_of_nodes lib p nodes hlist, hc]
  refine ⟨?_, ?_, ?_, ?_⟩
  · intro hnil
    simp [hnil]
  · intro hne hs
    simp [hne, hdef.2 hs]
  · intro hne hns hall
    have hd : ¬ c.HasDefaultPath = true := fun h => hns (hdef.1 h)
    have hany : ¬ nodes.any (fun n => c.IsNodeAllowed n.Name) = true := by
      rw [List.any_eq_true]
      rintro ⟨n, hn, hallowed⟩
      rw [hall n hn] at hallowed
      cases hallowed
    simp only [Bool.not_eq_true] at hd hany
    simp [hne, hd, hany]
  · intro hne hns hex
    have hd : ¬ c.HasDefaultPath = true := fun h => hns (hdef.1 h)
    have hany : nodes.any (fun n => c.IsNodeAllowed n.Name) = true := by
      rw [List.any_eq_true]
      exact hex
    simp only [Bool.not_eq_true] at hd
    simp [hne, hd, hany]

/-- Witness of C2: `examplePlugin` reloads `node-a -> [/data1, /data2]`,
the host lists `node-a` and `node-b`, and `PreFilter` succeeds because
`node-a` is listed. -/
theorem C2_PreFilter_decision_witness :
    examplePlugin.PreFilter exampleLibrary =
      .ok ((none, NewStatus .Success []), (examplePlugin.loadConfig exampleLibrary).2) :=
  (C2_PreFilter_decision exampleLibrary examplePlugin
    [{ Name := "node-a" }, { Name := "node-b" }] exampleConfig rfl rfl).2.2.2
    (by simp) (by decide) ⟨{ Name := "node-a" }, by simp, by decide⟩

/-- C3: `Filter` returns an `Error` status when the node object is absent;
otherwise it returns `Unschedulable` "node is not in the allowed nodes list"
exactly when `IsNodeAllowed` of the held configuration is false for the
node's name, and `Success` exactly when it is true.  `Filter` leaves the
plugin, and so the held configuration, as it was, and its status does not
depend on what the object store would answer: it does not refresh. -/
theorem C3_Filter_decision (p : Plugin) (nodeInfo : NodeInfo) :
    (nodeInfo.Node = none → (p.Filter nodeInfo).1.code = Code.Error) ∧
    (∀ node : Node, nodeInfo.Node = some node →
      ((p.Filter nodeInfo).1 =
          NewStatus .Unschedulable ["node is not in the allowed nodes list"] ↔
        p.configManager.GetConfig.IsNodeAllowed node.Name = false) ∧
      ((p.Filter nodeInfo).1 = NewStatus .Success [] ↔
        p.configManager.GetConfig.IsNodeAllowed node.Name = true)) ∧
    (p.Filter nodeInfo).2 = p ∧
    (p.Filter nodeInfo).2.configManager.GetConfig = p.configManager.GetConfig ∧
    (∀ (clientset : Clientset) (handle : Handle),
      (Plugin.Filter { p with clientset := clientset, handle := handle } nodeInfo).1
        = (p.Filter nodeInfo).1) := by
  obtain ⟨node⟩ := nodeInfo
  cases node with
  | none =>
    refine ⟨fun _ => rfl, ?_, rfl, rfl, fun _ _ => rfl⟩
    intro node h
    cases h
  | some node =>
    refine ⟨?_, ?_, ?_, ?_, ?_⟩
    · intro h
      cases h
    · intro node' h
      cases h
      rw [Filter_present]
      by_cases ha : p.configManager.GetConfig.IsNodeAllowed node.Name = true
      · simp [ha, NewStatus]
      · simp only [Bool.not_eq_true] at ha
        simp [ha, NewStatus]
    · rw [Filter_present]
    · rw [Filter_present]
    · intro clientset handle
      rw [Filter_present, Filter_present]

/-- Witness of C3: under `node-a -> [/data1, /data2]` the node `node-b` is
rejected. -/
theorem C3_Filter_decision_witness :
    (examplePlugin.Filter { Node := some { Name := "node-b" } }).1
      = NewStatus .Unschedulable ["node is not in the allowed nodes list"] :=
  (((C3_Filter_decision examplePlugin { Node := some { Name := "node-b" } }).2.1
    { Name := "node-b" } rfl).1).2 (by decide)

/-- C7: when `loadConfig` fails, for any of its three reasons (the ConfigMap
cannot be fetched, the configured key is not in its data, the text under the
key does not parse), it returns an error and the plugin, with the
configuration it holds, is as before the call; these are the only ways it
returns an error.  `PreFilter` then decides from that earlier configuration:
its status is the one the candidate list and that configuration give, or the
node-listing error, never the refresh error. -/
theorem C7_refresh_failure_keeps_snapshot (lib : Library) (p : Plugin) :
    (∀ err : String,
      p.clientset.GetConfigMap p.pluginConfig.ConfigMapNamespace
        p.pluginConfig.ConfigMapName = .error err →
      ∃ e, p.loadConfig lib = (some e, p)) ∧
    (∀ cm : ConfigMap,
      p.clientset.GetConfigMap p.pluginConfig.ConfigMapNamespace
        p.pluginConfig.ConfigMapName = .ok cm →
      cm.Data p.pluginConfig.ConfigKey = none →
      ∃ e, p.loadConfig lib = (some e, p)) ∧
    (∀ (cm : ConfigMap) (d err : String),
      p.clientset.GetConfigMap p.pluginConfig.ConfigMapNamespace
        p.pluginConfig.ConfigMapName = .ok cm →
      cm.Data p.pluginConfig.ConfigKey = some d →
      lib.Unmarshal d.toUTF8 = .error err →
      ∃ e, p.loadConfig lib = (some e, p)) ∧
    (∀ e : String, (p.loadConfig lib).1 = some e →
      (p.loadConfig lib).2 = p ∧
      (p.loadConfig lib).2.configManager.GetConfig = p.configManager.GetConfig ∧
      (∀ nodes : List Node,
        p.handle.List = .ok (nodes.map fun n => { Node := some n }) →
        p.PreFilter lib = .ok ((none,
          if nodes = [] then
            NewStatus .Unschedulable ["no nodes available to schedule"]
          else if p.configManager.GetConfig.HasDefaultPath = true then
            NewStatus .Success []
          else if nodes.any (fun n =>
              p.configManager.GetConfig.IsNodeAllowed n.Name) = true then
            NewStatus .Success []
          else
            NewStatus .Unschedulable ["no nodes match the path configuration"]), p)) ∧
      (∀ err : String, p.handle.List = .error err →
        p.PreFilter lib = .ok ((none,
          NewStatus .Error ["error listing nodes: " ++ err]), p))) := by
  refine ⟨?_, ?_, ?_, ?_⟩
  · intro err hget
    simp only [Plugin.loadConfig, hget]
    exact ⟨_, rfl⟩
  · intro cm hget hkey
    simp only [Plugin.loadConfig, hget, hkey]
    exact ⟨_, rfl⟩
  · intro cm d err hget hkey hparse
    simp only [Plugin.loadConfig, hget, hkey, Manager.LoadConfig, hparse]
    exact ⟨_, rfl⟩
  · intro e he
    have hkeep := loadConfig_error_keeps lib p e he
    refine ⟨hkeep, by rw [hkeep], ?_, ?_⟩
    · intro nodes hlist
      have := PreFilter_of_nodes lib p nodes hlist
      rw [hkeep] at this
      exact this
    · intro err hlist
      have := PreFilter_of_list_error lib p err hlist
      rw [hkeep] at this
      exact this

/-- Witness of C7: the object store serves the document but the decoder
rejects it; `examplePlugin` keeps `node-a -> [/data1, /data2]` and
`PreFilter` succeeds on the listed nodes `node-a`, `node-b`. -/
theorem C7_refresh_failure_keeps_snapshot_witness :
    (examplePlugin.loadConfig rejectingLibrary).1 =
        some "failed to load config data: failed to unmarshal config: unexpected end of JSON input" ∧
      examplePlugin.PreFilter rejectingLibrary =
        .ok ((none, NewStatus .Success []), examplePlugin) :=
  ⟨by decide, by
    have h := ((C7_refresh_failure_keeps_snapshot rejectingLibrary examplePlugin).2.2.2
      "failed to load config data: failed to unmarshal config: unexpected end of JSON input"
      (by decide)).2.2.1 [{ Name := "node-a" }, { Name := "node-b" }] rfl
    rw [h]
    rfl⟩

end custom

namespace custom

open config framework

theorem loadConfig_pluginConfig (lib : Library) (p : Plugin) :
    (p.loadConfig lib).2.pluginConfig = p.pluginConfig := by
  rcases loadConfig_cases lib p with ⟨_, e', he⟩ | ⟨_, e', he⟩ | ⟨_, e', he⟩ |
    ⟨cm, d, c', _, _, _, hok⟩
  · rw [he]
  · rw [he]
  · rw [he]
  · rw [hok]

/-- What `New` does once the configuration source is chosen. -/
theorem New_build_spec (lib : Library) (f : Handle) (source : PluginConfig) :
    (∀ e : String,
      (Plugin.loadConfig lib
        { handle := f, configManager := NewManager, clientset := f.ClientSet,
          pluginConfig := source }).1 = some e →
      New.build lib f source = .error ("failed to load initial config: " ++ e)) ∧
    ((Plugin.loadConfig lib
        { handle := f, configManager := NewManager, clientset := f.ClientSet,
          pluginConfig := source }).1 = none →
      ∃ plugin : Plugin, New.build lib f source = .ok plugin ∧
        plugin.pluginConfig = source) := by
  have hcfg := loadConfig_pluginConfig lib
    { handle := f, configManager := NewManager, clientset := f.ClientSet,
      pluginConfig := source }
  cases hload : Plugin.loadConfig lib
    { handle := f, configManager := NewManager, clientset := f.ClientSet,
      pluginConfig := source } with
  | mk err plugin =>
    rw [hload] at hcfg
    constructor
    · intro e he
      cases he
      simp only [New.build, hload]
    · intro hnone
      cases hnone
      refine ⟨plugin, ?_, hcfg⟩
      simp only [New.build, hload]

/-- A configuration object whose decoded arguments have no `storageConfig`
makes `New` panic: the logging call reads through the nil pointer before the
nil test. -/
theorem New_panics_without_storageConfig (lib : Library) (f : Handle) (obj : RuntimeObject)
    (hdec : lib.DecodeInto obj = .ok { StorageConfig := none }) :
    New lib (some obj) f = .panic nilDereference := by
  simp only [New, hdec]

/-- A candidate without a node object makes `PreFilter` panic when the held
configuration has no sentinel entry and allows no earlier candidate. -/
theorem PreFilter_loop_panics_on_nil_node (m : Manager) (rest : List NodeInfo) :
    Plugin.PreFilter.loop m ({ Node := none } :: rest) = .panic nilDereference := rfl

/-- C8, as the code has it: the configuration source is chosen as a whole.
Given no configuration object, `New` fetches from the default triple
(`local-path-config`, `kube-system`, `config.json`); given an object whose
decoded arguments carry a `storageConfig` override, it fetches from that
override exactly as decoded, a field left unset being the empty string.  In
both cases the initial load from that source either fails, and `New` returns
the error, or succeeds, and `New` returns a plugin carrying that source. -/
theorem C8_New_source_override_or_default (lib : Library) (f : Handle) :
    ((∀ e : String,
        (Plugin.loadConfig lib
          { handle := f, configManager := NewManager, clientset := f.ClientSet,
            pluginConfig :=
              { ConfigMapName := "local-path-config", ConfigMapNamespace := "kube-system",
                ConfigKey := "config.json" } }).1 = some e →
        New lib none f = .ok (.error ("failed to load initial config: " ++ e))) ∧
      ((Plugin.loadConfig lib
          { handle := f, configManager := NewManager, clientset := f.ClientSet,
            pluginConfig :=
              { ConfigMapName := "local-path-config", ConfigMapNamespace := "kube-system",
                ConfigKey := "config.json" } }).1 = none →
        ∃ plugin : Plugin, New lib none f = .ok (.ok plugin) ∧
          plugin.pluginConfig =
            { ConfigMapName := "local-path-config", ConfigMapNamespace := "kube-system",
              ConfigKey := "config.json" })) ∧
    (∀ (obj : RuntimeObject) (o : PluginConfig),
      lib.DecodeInto obj = .ok { StorageConfig := some o } →
      (∀ e : String,
        (Plugin.loadConfig lib
          { handle := f, configManager := NewManager, clientset := f.ClientSet,
            pluginConfig := o }).1 = some e →
        New lib (some obj) f = .ok (.error ("failed to load initial config: " ++ e))) ∧
      ((Plugin.loadConfig lib
          { handle := f, configManager := NewManager, clientset := f.ClientSet,
            pluginConfig := o }).1 = none →
        ∃ plugin : Plugin, New lib (some obj) f = .ok (.ok plugin) ∧
          plugin.pluginConfig = o)) := by
  constructor
  · have hb := New_build_spec lib f
      { ConfigMapName := "local-path-config", ConfigMapNamespace := "kube-system",
        ConfigKey := "config.json" }
    have hnew : New lib none f = .ok (New.build lib f
        { ConfigMapName := "local-path-config", ConfigMapNamespace := "kube-system",
          ConfigKey := "config.json" }) := rfl
    constructor
    · intro e he
      rw [hnew, hb.1 e he]
    · intro hnone
      obtain ⟨plugin, hbuild, hcfg⟩ := hb.2 hnone
      exact ⟨plugin, by rw [hnew, hbuild], hcfg⟩
  · intro obj o hdec
    have hb := New_build_spec lib f o
    have hnew : New lib (some obj) f = .ok (New.build lib f o) := by
      simp only [New, hdec]
    constructor
    · intro e he
      rw [hnew, hb.1 e he]
    · intro hnone
      obtain ⟨plugin, hbuild, hcfg⟩ := hb.2 hnone
      exact ⟨plugin, by rw [hnew, hbuild], hcfg⟩

/-- Witness of the amended C8: the arguments override only `configMapName`;
on a host whose object store answers every request, `New` returns a plugin
whose source is the override as decoded. -/
theorem C8_New_source_override_or_default_witness :
    ∃ plugin : Plugin, New exampleLibrary (some exampleArgs) permissiveHandle = .ok (.ok plugin) ∧
      plugin.pluginConfig =
        { ConfigMapName := "my-config", ConfigMapNamespace := "", ConfigKey := "" } :=
  ((C8_New_source_override_or_default exampleLibrary permissiveHandle).2 exampleArgs
    { ConfigMapName := "my-config", ConfigMapNamespace := "", ConfigKey := "" } rfl).2 rfl

/-- Counterexample to C8 as stated: the arguments set only `configMapName`
to `my-config`.  Field-by-field resolution would give the source
(`my-config`, `kube-system`, `config.json`), from which the initial load on
`exampleHandle` succeeds; `New` instead fetches at the empty namespace and
fails, and on a host that answers every request it returns a plugin with
an empty namespace and an empty key. -/
theorem C8_field_by_field_counterexample :
    exampleLibrary.DecodeInto exampleArgs =
        .ok { StorageConfig :=
          some { ConfigMapName := "my-config", ConfigMapNamespace := "", ConfigKey := "" } } ∧
      resolveFieldByField
          (some { ConfigMapName := "my-config", ConfigMapNamespace := "", ConfigKey := "" })
        = { ConfigMapName := "my-config", ConfigMapNamespace := "kube-system",
            ConfigKey := "config.json" } ∧
      (∃ plugin : Plugin,
        New.build exampleLibrary exampleHandle
          (resolveFieldByField
            (some { ConfigMapName := "my-config", ConfigMapNamespace := "", ConfigKey := "" }))
          = .ok plugin) ∧
      New exampleLibrary (some exampleArgs) exampleHandle =
        .ok (.error ("failed to load initial config: "
          ++ "failed to get ConfigMap /my-config: configmaps \"my-config\" not found")) ∧
      (∃ plugin : Plugin,
        New exampleLibrary (some exampleArgs) permissiveHandle = .ok (.ok plugin) ∧
        plugin.pluginConfig.ConfigMapNamespace = "" ∧
        plugin.pluginConfig.ConfigKey = "" ∧
        plugin.pluginConfig ≠
          resolveFieldByField
            (some { ConfigMapName := "my-config", ConfigMapNamespace := "", ConfigKey := "" })) := by
  refine ⟨rfl, by decide, ⟨_, rfl⟩, ?_, ⟨_, rfl, rfl, rfl, ?_⟩⟩
  · rfl
  · decide

/-- C10: on a list of present nodes, with the plugin as `PreFilter` leaves
it, `PreFilter` returns `Success` exactly when the list is non-empty and
`Filter` returns `Success` for at least one of its nodes, and
`Unschedulable` exactly when `Filter` returns `Unschedulable` for every one
of them; its status is the one obtained without the sentinel step: empty
list, else some node allowed, else none. -/
theorem C10_PreFilter_agrees_with_Filter (lib : Library) (p : Plugin) (nodes : List Node)
    (hlist : p.handle.List = .ok (nodes.map fun n => { Node := some n })) :
    ∃ status : Status,
      p.PreFilter lib = .ok ((none, status), (p.loadConfig lib).2) ∧
      (status.code = Code.Success ↔
        nodes ≠ [] ∧ ∃ n ∈ nodes,
          (Plugin.Filter (p.loadConfig lib).2 { Node := some n }).1.code = Code.Success) ∧
      (status.code = Code.Unschedulable ↔
        ∀ n ∈ nodes,
          (Plugin.Filter (p.loadConfig lib).2 { Node := some n }).1.code
            = Code.Unschedulable) ∧
      status =
        (if nodes = [] then
          NewStatus .Unschedulable ["no nodes available to schedule"]
        else if nodes.any (fun n =>
            (p.loadConfig lib).2.configManager.GetConfig.IsNodeAllowed n.Name) = true then
          NewStatus .Success []
        else
          NewStatus .Unschedulable ["no nodes match the path configuration"]) := by
  refine ⟨_, PreFilter_of_nodes lib p nodes hlist, ?_⟩
  generalize (p.loadConfig lib).2 = q
  have hF : ∀ n : Node, (q.Filter { Node := some n }).1.code =
      if q.configManager.GetConfig.IsNodeAllowed n.Name = true then Code.Success
      else Code.Unschedulable := by
    intro n
    rw [Filter_present]
    by_cases h : q.configManager.GetConfig.IsNodeAllowed n.Name = true <;> simp [h, NewStatus]
  have hFS : ∀ n : Node, (q.Filter { Node := some n }).1.code = Code.Success ↔
      q.configManager.GetConfig.IsNodeAllowed n.Name = true := by
    intro n
    rw [hF]
    by_cases h : q.configManager.GetConfig.IsNodeAllowed n.Name = true <;> simp [h]
  have hFU : ∀ n : Node, (q.Filter { Node := some n }).1.code = Code.Unschedulable ↔
      q.configManager.GetConfig.IsNodeAllowed n.Name = false := by
    intro n
    rw [hF]
    by_cases h : q.configManager.GetConfig.IsNodeAllowed n.Name = true <;> simp [h]
  simp only [hFS, hFU]
  by_cases hnil : nodes = []
  · subst hnil
    simp [NewStatus]
  · by_cases hany : nodes.any (fun n =>
        q.configManager.GetConfig.IsNodeAllowed n.Name) = true
    · have hex : ∃ n ∈ nodes, q.configManager.GetConfig.IsNodeAllowed n.Name = true := by
        simpa [List.any_eq_true] using hany
      have hnall : ¬ ∀ n ∈ nodes, q.configManager.GetConfig.IsNodeAllowed n.Name = false := by
        obtain ⟨n, hn, ha⟩ := hex
        intro hall
        rw [hall n hn] at ha
        cases ha
      have hst : (if nodes = [] then
            NewStatus .Unschedulable ["no nodes available to schedule"]
          else if q.configManager.GetConfig.HasDefaultPath = true then
            NewStatus .Success []
          else if nodes.any (fun n =>
              q.configManager.GetConfig.IsNodeAllowed n.Name) = true then
            NewStatus .Success []
          else
            NewStatus .Unschedulable ["no nodes match the path configuration"])
          = NewStatus .Success [] := by
        simp [hnil, hany]
      simp only [hst]
      refine ⟨⟨fun _ => ⟨hnil, hex⟩, fun _ => rfl⟩, ⟨fun h => ?_, fun h => absurd h hnall⟩, ?_⟩
      · simp [NewStatus] at h
      · simp [hnil, hany]
    · have hall : ∀ n ∈ nodes, q.configManager.GetConfig.IsNodeAllowed n.Name = false := by
        intro n hn
        by_contra hcon
        simp only [Bool.not_eq_false] at hcon
        exact hany (List.any_eq_true.2 ⟨n, hn, hcon⟩)
      have hnex : ¬ ∃ n ∈ nodes, q.configManager.GetConfig.IsNodeAllowed n.Name = true := by
        rintro ⟨n, hn, ha⟩
        rw [hall n hn] at ha
        cases ha
      have hdef : q.configManager.GetConfig.HasDefaultPath = false := by
        obtain ⟨n, hn⟩ := List.exists_mem_of_ne_nil nodes hnil
        have := hall n hn
        by_contra hcon
        simp only [Bool.not_eq_false] at hcon
        simp [SchedulerConfig.IsNodeAllowed, hcon] at this
      simp only [Bool.not_eq_true] at hany
      have hst : (if nodes = [] then
            NewStatus .Unschedulable ["no nodes available to schedule"]
          else if q.configManager.GetConfig.HasDefaultPath = true then
            NewStatus .Success []
          else if nodes.any (fun n =>
              q.configManager.GetConfig.IsNodeAllowed n.Name) = true then
            NewStatus .Success []
          else
            NewStatus .Unschedulable ["no nodes match the path configuration"])
          = NewStatus .Unschedulable ["no nodes match the path configuration"] := by
        simp [hnil, hany, hdef]
      simp only [hst]
      refine ⟨⟨fun h => ?_, fun h => absurd h.2 hnex⟩, ⟨fun _ => hall, fun _ => rfl⟩, ?_⟩
      · simp [NewStatus] at h
      · simp [hnil, hany]

/-- Witness of C10: `examplePlugin` reloads `node-a -> [/data1, /data2]`
and the host lists `node-a` and `node-b`; `PreFilter` succeeds and `Filter`
succeeds for `node-a`. -/
theorem C10_PreFilter_agrees_with_Filter_witness :
    ∃ status : Status,
      examplePlugin.PreFilter exampleLibrary =
        .ok ((none, status), (examplePlugin.loadConfig exampleLibrary).2) ∧
      status.code = Code.Success ∧
      (Plugin.Filter (examplePlugin.loadConfig exampleLibrary).2
        { Node := some { Name := "node-a" } }).1.code = Code.Success := by
  obtain ⟨status, hpre, hsucc, -, -⟩ :=
    C10_PreFilter_agrees_with_Filter exampleLibrary examplePlugin
      [{ Name := "node-a" }, { Name := "node-b" }] rfl
  have hfilter : (Plugin.Filter (examplePlugin.loadConfig exampleLibrary).2
      { Node := some { Name := "node-a" } }).1.code = Code.Success := by decide
  exact ⟨status, hpre, hsucc.2 ⟨by simp, { Name := "node-a" }, by simp, hfilter⟩, hfilter⟩

end custom
